import Mathlib

/-!
Shallow embedding of the content-generation orchestration engine
(Next.js route `POST /api/generate` and its helper functions) and proofs
of the specification claims about it.

Conventions of the embedding:
* JavaScript strings are `String` (lists of characters); `s.toLowerCase()`
  is `lowerStr`, `s.includes(t)` is `strIncludes`, `s.startsWith(t)` is
  `startsList` on character lists, `s.trim()` is `jsTrim` (the JS
  whitespace set, restricted to its common members).
* Optional / possibly-`undefined` JavaScript values are `Option`;
  JS truthiness of an optional string (`undefined`, `null` and `""` are
  falsy) is `truthyS`.
* The external generative service is an oracle: a call either raises
  (`Except.error`) or returns a first reply block, which is either a text
  block carrying a string or some other block kind.
* `JSON.parse` is likewise an oracle `String → Option Json`
  (`none` models a parse exception); machine numbers are `ℚ`.
-/

namespace ContentRoute

/-- Boolean prefix test on character lists (JS `String.startsWith`). -/
def startsList : List Char → List Char → Bool
  | [], _ => true
  | _ :: _, [] => false
  | a :: as, b :: bs => a == b && startsList as bs

/-- Boolean substring test (JS `String.includes`): does the second list
contain the first as a contiguous run? -/
def containsList (pat : List Char) : List Char → Bool
  | [] => pat.isEmpty
  | c :: tl => startsList pat (c :: tl) || containsList pat tl

/-- JS `haystack.includes(needle)`. -/
def strIncludes (s sub : String) : Bool := containsList sub.data s.data

/-- JS `String.toLowerCase` (ASCII-accurate; all strings compared by the
engine are ASCII). -/
def lowerStr (s : String) : String := ⟨s.data.map Char.toLower⟩

/-- The JS `\s` / `trim` whitespace set (common members). -/
def isJsWS (c : Char) : Bool :=
  c == ' ' || c == '\t' || c == '\n' || c == '\r' ||
  c == Char.ofNat 0x0b || c == Char.ofNat 0x0c || c == Char.ofNat 0xa0 ||
  c == Char.ofNat 0x2028 || c == Char.ofNat 0x2029 || c == Char.ofNat 0xfeff

/-- JS `String.trim`. -/
def jsTrim (s : String) : String :=
  ⟨((s.data.dropWhile isJsWS).reverse.dropWhile isJsWS).reverse⟩

/-- Truthiness of a possibly-absent JS string (`undefined`/`""` falsy). -/
def truthyS : Option String → Bool
  | none => false
  | some s => !(s == "")

/-- JS `a || b` for a possibly-absent string `a` with string fallback `b`. -/
def orElseStr (a : Option String) (b : String) : String :=
  match a with
  | some s => if s == "" then b else s
  | none => b

/-! ### Calibration examples

A brand-voice example arrives either as a legacy plain string, as a tagged
object, or as `null`.  Tagged objects are duck-typed in the source; the
fields the route ever reads are `type`, `content`, `textContent`, `text`
and `mimeType`, all modelled as optional strings.  (In JS the `content`
slot of a malformed entry could hold a non-string value; such entries are
outside every claim and are modelled by absent fields.) -/

structure ExObj where
  type : Option String
  content : Option String
  textContent : Option String
  text : Option String
  mimeType : Option String
deriving DecidableEq, Repr

inductive ExVal where
  | vStr (s : String)
  | vObj (o : ExObj)
  | vNull
deriving DecidableEq, Repr

/-- JS truthiness of an example value. -/
def ExVal.truthy : ExVal → Bool
  | .vNull => false
  | .vStr s => !(s == "")
  | .vObj _ => true

/-- Field access `ex.type` (undefined on strings and null). -/
def ExVal.typeF : ExVal → Option String
  | .vObj o => o.type
  | _ => none

/-- Field access `ex.content`. -/
def ExVal.contentF : ExVal → Option String
  | .vObj o => o.content
  | _ => none

/-- Field access `ex.textContent`. -/
def ExVal.textContentF : ExVal → Option String
  | .vObj o => o.textContent
  | _ => none

/-- Field access `ex.text`. -/
def ExVal.textF : ExVal → Option String
  | .vObj o => o.text
  | _ => none

/-! ### `detectImageRequest` (route lines 173–221) -/

def imageKeywords : List String :=
  ["image", "visual", "graphic", "picture", "photo", "illustration",
   "design", "artwork", "poster", "banner", "infographic", "thumbnail",
   "cover image", "hero image", "feature image", "create an image",
   "generate an image", "make an image", "show me", "visualize"]

def imageOnlyKeywords : List String :=
  ["just an image", "only an image", "only image", "just image",
   "image only", "no text", "without text", "skip the text",
   "just the visual", "only the visual", "only visual"]

structure ImageIntentResult where
  wantsImage : Bool
  imageOnly : Bool
  reasoning : String
deriving DecidableEq, Repr

/-- The classifier `detectImageRequest(topic, brandVoiceExamples?)`. -/
def detectImageRequest (topic : String) (brandVoiceExamples : Option (List ExVal)) :
    ImageIntentResult :=
  let hasImageInBrandVoice : Option Bool :=
    brandVoiceExamples.map (·.any fun ex =>
      ex.truthy && (ex.typeF == some "image" || ex.typeF == some "mixed"))
  let topicLower := lowerStr topic
  let containsImageKeyword := imageKeywords.any fun keyword => strIncludes topicLower keyword
  let brandVoiceTextHasImageKeyword :=
    (brandVoiceExamples.map (·.any fun ex =>
      if !ex.truthy then false
      else
        let textToCheck := lowerStr (orElseStr ex.textContentF (orElseStr ex.contentF ""))
        imageKeywords.any fun keyword => strIncludes textToCheck keyword)).getD false
  let imageOnly := imageOnlyKeywords.any fun keyword => strIncludes topicLower keyword
  let wantsImage := containsImageKeyword || hasImageInBrandVoice.getD false ||
    brandVoiceTextHasImageKeyword
  let reasoning :=
    if imageOnly then "User explicitly requested image only, no text content"
    else if containsImageKeyword then "Topic contains image-related keywords"
    else if brandVoiceTextHasImageKeyword then
      "Brand voice text description mentions image-related keywords"
    else if hasImageInBrandVoice.getD false then
      "Brand voice calibration includes images, suggesting visual style preference"
    else ""
  { wantsImage := wantsImage, imageOnly := imageOnly, reasoning := reasoning }

/-! ### Brand voice data and `generateContentForFormat` (route lines 376–507) -/

/-- The `BrandVoiceAnalysis` interface as consumed by the format generator
(`tone`, `style`, `terminology`, `structure`; the JS field `structure` is
spelled `structureDesc` because `structure` is a Lean keyword). -/
structure BrandVoice where
  tone : String
  style : String
  terminology : List String
  structureDesc : String
deriving DecidableEq, Repr

/-- The `GeneratedContent` shape returned per format. -/
structure GeneratedContent where
  format : String
  content : String
  consistencyScore : Option ℚ := none
  title : Option String := none
  imageUrl : Option String := none
deriving DecidableEq, Repr

/-- Shape of an error raised by the service client: `status` models
`'status' in error` plus its value, `errType` is `error.error?.type`,
`errMsg` is `error.error?.message`, `message` is the outer message
(`error instanceof Error ? error.message : String(error)`). -/
structure ApiError where
  status : Option Nat
  errType : Option String
  errMsg : Option String
  message : String
deriving DecidableEq, Repr

/-- First block of a service reply: a text block or some other block kind. -/
inductive ReplyBlock where
  | textBlock (text : String)
  | otherBlock
deriving DecidableEq, Repr

/-- Did the catch block take the authentication branch
(`status === 401 || error.type === 'authentication_error'`, both only
tested when `'status' in error`)? -/
def isAuthShaped (e : ApiError) : Bool :=
  match e.status with
  | some st => st == 401 || e.errType == some "authentication_error"
  | none => false

/-- Did the catch block take the malformed-request branch
(`status === 400 || error.type === 'invalid_request_error'`, reached only
when the authentication branch was not taken)? -/
def isReqShaped (e : ApiError) : Bool :=
  match e.status with
  | some st =>
      !(st == 401 || e.errType == some "authentication_error") &&
      (st == 400 || e.errType == some "invalid_request_error")
  | none => false

/-- The generator `generateContentForFormat(topic, industry, format, brandVoice?)`, as a
function of the outcome of its one service call.  The TS return type is
`GeneratedContent | null`, hence the `Option`; every control path in the
source in fact returns an object. -/
def generateContentForFormat (topic industry format : String)
    (brandVoice : Option BrandVoice) (outcome : Except ApiError ReplyBlock) :
    Option GeneratedContent :=
  -- `topic`/`industry` only shape the prompt, which the oracle absorbs.
  let _ := topic
  let _ := industry
  match outcome with
  | .ok (.textBlock replyText) =>
      let consistencyScore : Option ℚ :=
        match brandVoice with
        | some bv =>
            if bv.terminology.length > 0 then
              let contentText := lowerStr replyText
              let matchingTerms :=
                (bv.terminology.filter fun term =>
                  strIncludes contentText (lowerStr term)).length
              some (min 95 (70 + ((matchingTerms : ℚ) / (bv.terminology.length : ℚ)) * 25))
            else some 75
        | none => none
      some { format := format, content := replyText, consistencyScore := consistencyScore }
  | .ok .otherBlock =>
      some { format := format,
             content := "Error generating " ++ format ++ " content. Please try again." }
  | .error e =>
      match e.status with
      | some st =>
          if st == 401 || e.errType == some "authentication_error" then
            some { format := format,
                   content := "❌ Authentication Error: " ++ e.errMsg.getD "Invalid API key" ++
                     ". Please check your ANTHROPIC_API_KEY in Vercel environment variables." }
          else if st == 400 || e.errType == some "invalid_request_error" then
            some { format := format,
                   content := "❌ Request Error: " ++ e.errMsg.getD "Invalid request" ++
                     ". Please try again with different parameters." }
          else
            some { format := format,
                   content := "❌ Error generating " ++ format ++ " content: " ++ e.message ++
                     ". Please check your API key and try again." }
      | none =>
          some { format := format,
                 content := "❌ Error generating " ++ format ++ " content: " ++ e.message ++
                   ". Please check your API key and try again." }

/-- The artifact actually produced for one format (the `Option` is never
`none`; see `generateContentForFormat_isSome`). -/
def generatedArtifact (topic industry format : String)
    (brandVoice : Option BrandVoice) (outcome : Except ApiError ReplyBlock) :
    GeneratedContent :=
  (generateContentForFormat topic industry format brandVoice outcome).getD
    { format := format, content := "" }

/-- The fan-out at route lines 607–613: one generation promise per
requested format, jointly awaited (`Promise.all`), nulls filtered.
`svc` gives each format's service-call outcome. -/
def batchContents (topic industry : String) (formats : List String)
    (brandVoice : Option BrandVoice) (svc : String → Except ApiError ReplyBlock) :
    List GeneratedContent :=
  (formats.map fun format =>
    generateContentForFormat topic industry format brandVoice (svc format)).filterMap id

/-- The score `consistencyScore` as the specification words it: with an analysis whose
terminology is non-empty, `min(95, 70 + 25 × matchedCount/totalCount)`
where `matchedCount` counts terminology entries occurring as
case-insensitive substrings of the reply; exactly `75` with an analysis
whose terminology is empty; absent with no analysis.  (Spec-side
definition, for comparison with the code.) -/
def specConsistencyScore (brandVoice : Option BrandVoice) (reply : String) : Option ℚ :=
  match brandVoice with
  | none => none
  | some a =>
      if a.terminology = [] then some 75
      else
        let matchedCount :=
          (a.terminology.filter fun term =>
            strIncludes (lowerStr reply) (lowerStr term)).length
        some (min 95 (70 + 25 * (matchedCount : ℚ) / (a.terminology.length : ℚ)))

/-! ### `analyzeBrandVoice` (route lines 16–170)

The reply-parsing regexes are embedded over character lists:
`/```(?:json)?\s*(\{[\s\S]*\})\s*```/` (fenced block whose body is
brace-delimited, greedy capture) and `/\{[\s\S]*\}/` (first opening brace
through the last closing brace, greedy). -/

def backtickCh : Char := Char.ofNat 96
def lbraceCh : Char := Char.ofNat 0x7b
def rbraceCh : Char := Char.ofNat 0x7d

/-- Structured data as produced by `JSON.parse`. -/
inductive Json where
  | null
  | bool (b : Bool)
  | num (q : ℚ)
  | str (s : String)
  | arr (elems : List Json)
  | obj (fields : List (String × Json))

/-- The fixed fallback profile of `analyzeBrandVoice`. -/
def defaultProfile : Json :=
  .obj [("tone", .str "professional"), ("style", .str "clear and concise"),
        ("terminology", .arr []), ("structure", .str "standard")]

/-- Greedy capture tail for the fenced-block regex: the input starts at the
opening brace; take through the *last* closing brace that is followed by
optional whitespace and a closing fence. -/
def captureTail : List Char → Option (List Char)
  | [] => none
  | c :: cs =>
      match captureTail cs with
      | some r => some (c :: r)
      | none =>
          if c == rbraceCh &&
             startsList [backtickCh, backtickCh, backtickCh] (cs.dropWhile isJsWS) then
            some [c]
          else none

/-- Attempt the fenced-block regex at one position: `t` is the text right
after an opening fence.  An optional literal `json` tag, then whitespace,
then a brace-delimited greedy capture closed by whitespace and a fence. -/
def fenceFrom (t : List Char) : Option (List Char) :=
  let t1 := if startsList "json".data t then t.drop 4 else t
  let t2 := t1.dropWhile isJsWS
  match t2 with
  | c :: _ => if c == lbraceCh then captureTail t2 else none
  | [] => none

/-- Leftmost match of the fenced-block regex over the whole reply. -/
def fenceScan : List Char → Option (List Char)
  | [] => none
  | c :: cs =>
      if startsList [backtickCh, backtickCh, backtickCh] (c :: cs) then
        match fenceFrom (cs.drop 2) with
        | some r => some r
        | none => fenceScan cs
      else fenceScan cs

/-- Keep a list through its *last* closing brace (greedy `[\s\S]*\}`). -/
def takeThroughLastRBrace : List Char → Option (List Char)
  | [] => none
  | c :: cs =>
      match takeThroughLastRBrace cs with
      | some r => some (c :: r)
      | none => if c == rbraceCh then some [c] else none

/-- The regex `/\{[\s\S]*\}/`: from the first opening brace through the
last closing brace after it (`none` when there is no such span). -/
def braceSpan (l : List Char) : Option (List Char) :=
  match l.dropWhile (fun c => !(c == lbraceCh)) with
  | [] => none
  | c :: cs => (takeThroughLastRBrace cs).map fun r => c :: r

/-- The JSON-candidate extraction of `analyzeBrandVoice` (route lines
138–150): trim the reply, substitute the fenced capture if the fenced
regex matches, then substitute the brace span if that regex matches. -/
def extractCandidate (s : String) : String :=
  let t := jsTrim s
  let afterFence : List Char :=
    match fenceScan t.data with
    | some cap => cap
    | none => t.data
  match braceSpan afterFence with
  | some r => ⟨r⟩
  | none => ⟨afterFence⟩

/-- The example normalization at route lines 29–36: strings become
`{type:'text', content: s}`; then entries are kept only when truthy with
a truthy `content` or `text` property. -/
def processedExamples (examples : List ExVal) : List ExVal :=
  (examples.map fun ex =>
    match ex with
    | .vStr s => .vObj ⟨some "text", some s, none, none, none⟩
    | e => e).filter fun ex =>
      ex.truthy && (truthyS ex.contentF || truthyS ex.textF)

/-- The analyzer `analyzeBrandVoice(examples)`: the whole function as a map from the
input (`none` models `null`/a non-array), the service outcome and a
`JSON.parse` oracle to the returned analysis.  Every control path returns;
service errors, non-text reply blocks and parse failures all fall through
to the fixed default profile. -/
def analyzeBrandVoice (examples : Option (List ExVal))
    (svc : Except Unit ReplyBlock) (decode : String → Option Json) : Json :=
  match examples with
  | none => defaultProfile
  | some [] => defaultProfile
  | some (_ :: _) =>
      match svc with
      | .error _ => defaultProfile
      | .ok .otherBlock => defaultProfile
      | .ok (.textBlock t) =>
          match decode (extractCandidate t) with
          | some analysis => analysis
          | none => defaultProfile

/-! ### `generateSVGImage` (route lines 247–373) -/

/-- Global replace of ``` ```svg ``` plus an optional newline by the empty
string (first `replace` at route line 346), fuelled for structural
recursion; the fuel is the list length, which suffices (the scan consumes
at least one character per step). -/
def replFenceSvgGo : Nat → List Char → List Char
  | 0, l => l
  | _ + 1, [] => []
  | fuel + 1, c :: cs =>
      if startsList [backtickCh, backtickCh, backtickCh, 's', 'v', 'g'] (c :: cs) then
        match (c :: cs).drop 6 with
        | nl :: r => if nl == '\n' then replFenceSvgGo fuel r else replFenceSvgGo fuel (nl :: r)
        | [] => []
      else c :: replFenceSvgGo fuel cs

def replFenceSvg (l : List Char) : List Char := replFenceSvgGo l.length l

/-- Global replace of ``` ``` ``` plus an optional newline by the empty
string (second `replace` at route line 346). -/
def replFenceBareGo : Nat → List Char → List Char
  | 0, l => l
  | _ + 1, [] => []
  | fuel + 1, c :: cs =>
      if startsList [backtickCh, backtickCh, backtickCh] (c :: cs) then
        match (c :: cs).drop 3 with
        | nl :: r => if nl == '\n' then replFenceBareGo fuel r else replFenceBareGo fuel (nl :: r)
        | [] => []
      else c :: replFenceBareGo fuel cs

def replFenceBare (l : List Char) : List Char := replFenceBareGo l.length l

def svgOpen : List Char := "<svg".data
def svgClose : List Char := "</svg>".data

/-- Keep a list through the last occurrence of `</svg>` (greedy
`[\s\S]*<\/svg>`), discarding what follows. -/
def takeThroughLastCloseSvg : List Char → Option (List Char)
  | [] => none
  | c :: cs =>
      match takeThroughLastCloseSvg cs with
      | some r => some (c :: r)
      | none => if startsList svgClose (c :: cs) then some svgClose else none

/-- The regex `/<svg[\s\S]*<\/svg>/`: from the first `<svg` through the
end of the last `</svg>` after it. -/
def svgSpanMatch : List Char → Option (List Char)
  | [] => none
  | c :: cs =>
      if startsList svgOpen (c :: cs) then
        match takeThroughLastCloseSvg ((c :: cs).drop 4) with
        | some r => some (svgOpen ++ r)
        | none => svgSpanMatch cs
      else svgSpanMatch cs

/-- The reply cleanup of the success path (route lines 343–354): trim,
strip fence markers, and if the result does not start with `<svg`,
substitute the first well-formed `<svg ... </svg>` span when one exists. -/
def svgFromReply (reply : String) : String :=
  let svgCode := replFenceBare (replFenceSvg (jsTrim reply).data)
  if startsList svgOpen svgCode then ⟨svgCode⟩
  else
    match svgSpanMatch svgCode with
    | some r => ⟨r⟩
    | none => ⟨svgCode⟩

/-- The template text of the placeholder graphic before the interpolated
`${topic}` (route lines 363–371). -/
def placeholderPre : String :=
  "<svg viewBox=\"0 0 1200 630\" xmlns=\"http://www.w3.org/2000/svg\">\n    <defs>\n      <linearGradient id=\"grad\" x1=\"0%\" y1=\"0%\" x2=\"100%\" y2=\"100%\">\n        <stop offset=\"0%\" style=\"stop-color:rgb(196,164,132);stop-opacity:1\" />\n        <stop offset=\"100%\" style=\"stop-color:rgb(166,137,104);stop-opacity:1\" />\n      </linearGradient>\n    </defs>\n    <rect width=\"1200\" height=\"630\" fill=\"url(#grad)\"/>\n    <text x=\"600\" y=\"315\" font-family=\"Arial, sans-serif\" font-size=\"48\" fill=\"white\" text-anchor=\"middle\">"

/-- The template text of the placeholder graphic after the interpolated
`${topic}` (route lines 371–372). -/
def placeholderPost : String := "</text>\n  </svg>"

/-- The deterministic placeholder graphic returned on any synthesis error
(route lines 363–372): fixed gradient background plus the topic centered. -/
def placeholderSVG (topic : String) : String :=
  placeholderPre ++ topic ++ placeholderPost

/-- The synthesizer `generateSVGImage(topic, …)` as a function of its one service-call
outcome.  The brand-voice arguments shape only the prompt (absorbed by the
oracle); any raised error and any non-text first block fall through to the
placeholder. -/
def generateSVGImage (topic : String) (outcome : Except Unit ReplyBlock) : String :=
  match outcome with
  | .ok (.textBlock text) => svgFromReply text
  | .ok .otherBlock => placeholderSVG topic
  | .error _ => placeholderSVG topic

/-! ### The `POST` handler (route lines 509–662) -/

/-- JS `encodeURIComponent` unescaped set: ASCII alphanumerics and
`- _ . ! ~ * ' ( )`. -/
def uriUnreserved (c : Char) : Bool :=
  c.isAlphanum &&  c.toNat < 128 ||
  c == '-' || c == '_' || c == '.' || c == '!' || c == '~' || c == '*' ||
  c == Char.ofNat 39 || c == '(' || c == ')'

/-- UTF-8 bytes of a character. -/
def utf8Bytes (c : Char) : List Nat :=
  let n := c.toNat
  if n < 0x80 then [n]
  else if n < 0x800 then [0xc0 + n / 0x40, 0x80 + n % 0x40]
  else if n < 0x10000 then
    [0xe0 + n / 0x1000, 0x80 + n / 0x40 % 0x40, 0x80 + n % 0x40]
  else
    [0xf0 + n / 0x40000, 0x80 + n / 0x1000 % 0x40, 0x80 + n / 0x40 % 0x40, 0x80 + n % 0x40]

def hexDigit (n : Nat) : Char :=
  if n < 10 then Char.ofNat (48 + n) else Char.ofNat (65 + n - 10)

/-- JS `encodeURIComponent`. -/
def encodeURIComponent (s : String) : String :=
  ⟨s.data.flatMap fun c =>
    if uriUnreserved c then [c]
    else (utf8Bytes c).flatMap fun b => ['%', hexDigit (b / 16), hexDigit (b % 16)]⟩

/-- The data-URI encoding of a synthesized graphic (route lines 592–594 and
617–620): `encodeURIComponent` with `'` forced to `%27` and `"` to `%22`. -/
def encodeSVGForDataURI (svg : String) : String :=
  ⟨((encodeURIComponent svg).data.flatMap fun c =>
      if c == Char.ofNat 39 then "%27".data else [c]).flatMap fun c =>
        if c == '"' then "%22".data else [c]⟩

def svgDataURI (svg : String) : String :=
  "data:image/svg+xml," ++ encodeSVGForDataURI svg

/-- The guard `validateApiKey` (route lines 6–9). -/
def validateApiKey (apiKey : String) : Bool :=
  startsList "sk-ant-".data apiKey.data && apiKey.length > 20

/-- The parsed request body; `topic`/`industry` use `""` for both the
missing and the empty case (identical JS truthiness), `formats` and
`brandVoiceExamples` use `none` for a missing field. -/
structure RequestBody where
  topic : String
  industry : String
  formats : Option (List String)
  brandVoiceExamples : Option (List ExVal)
  brandVoice : Option BrandVoice

/-- An HTTP reply of the handler: a success JSON body (`contents` plus an
optional `brandVoiceAnalysis`) or an error JSON body with its status. -/
inductive ApiResponse where
  | ok (contents : List GeneratedContent) (brandVoiceAnalysis : Option BrandVoice)
  | err (error : String) (status : Nat)
deriving DecidableEq, Repr

/-- The normalization `examplesToUse` (route lines 533–544): legacy string arrays are mapped
to tagged text examples when the first element is a string; otherwise the
array passes through; a missing or empty field yields `[]`.  (In the
legacy branch JS would copy a non-string element verbatim into `content`;
such heterogeneous arrays crash the route later and are modelled with an
absent `content`.) -/
def examplesToUse (body : RequestBody) : List ExVal :=
  match body.brandVoiceExamples with
  | none => []
  | some l =>
      match l with
      | [] => []
      | .vStr _ :: _ =>
          l.map fun v =>
            match v with
            | .vStr s => .vObj ⟨some "text", some s, none, none, none⟩
            | _ => .vObj ⟨some "text", none, none, none, none⟩
      | _ => l

/-- The `POST` handler from the configuration guards to the merged
response, with the brand-voice analysis, the graphic synthesis and each
per-format generation call abstracted as oracles.  The top-level `catch`
is unreachable in the model (every modelled step is total). -/
def POSTflow (apiKey : String) (body : RequestBody)
    (analyzeResult : BrandVoice) (svgReply : Except Unit ReplyBlock)
    (formatSvc : String → Except ApiError ReplyBlock) : ApiResponse :=
  if apiKey == "" then
    .err "ANTHROPIC_API_KEY is not configured. Please set it in your .env.local file." 500
  else if !validateApiKey apiKey then
    .err "Invalid ANTHROPIC_API_KEY format. Please check your API key." 500
  else
    let exs := examplesToUse body
    if exs.length > 0 && (body.formats.getD []).length == 0 then
      .ok [] (some analyzeResult)
    else if body.topic == "" || body.industry == "" || (body.formats.getD []).length == 0 then
      .err "Missing required fields: topic, industry, and at least one format are required" 400
    else
      let brandVoice : Option BrandVoice :=
        if exs.length > 0 then some analyzeResult else body.brandVoice
      let imageRequest := detectImageRequest body.topic (some exs)
      let generatedSVG : Option String :=
        if imageRequest.wantsImage then some (generateSVGImage body.topic svgReply) else none
      if imageRequest.imageOnly && truthyS generatedSVG then
        .ok [{ format := "image", content := "SVG image generated successfully",
               title := some "Generated Image",
               imageUrl := some (svgDataURI ((generatedSVG).getD "")) }] brandVoice
      else
        let contents := batchContents body.topic body.industry (body.formats.getD [])
          brandVoice formatSvc
        let contents :=
          if truthyS generatedSVG then
            match contents with
            | [] => contents
            | c0 :: rest => { c0 with imageUrl := some (svgDataURI ((generatedSVG).getD "")) } :: rest
          else contents
        .ok contents brandVoice

/-! ## Lemmas about the string primitives -/

theorem startsList_iff (p l : List Char) : startsList p l = true ↔ p <+: l := by
  induction p generalizing l with
  | nil => simp [startsList]
  | cons a as ih =>
      cases l with
      | nil => simp [startsList]
      | cons b bs => simp [startsList, ih, List.cons_prefix_cons]

theorem containsList_iff (p l : List Char) : containsList p l = true ↔ p <:+: l := by
  induction l with
  | nil => simp [containsList, List.isEmpty_iff]
  | cons c tl ih => simp [containsList, startsList_iff, ih, List.infix_cons_iff]

theorem strIncludes_iff (s sub : String) : strIncludes s sub = true ↔ sub.data <:+: s.data :=
  containsList_iff sub.data s.data

theorem strIncludes_trans {a b c : String} (h1 : strIncludes b a = true)
    (h2 : strIncludes c b = true) : strIncludes c a = true :=
  (strIncludes_iff c a).mpr (((strIncludes_iff b a).mp h1).trans ((strIncludes_iff c b).mp h2))

/-! ## Claims C5 and C6: `detectImageRequest` -/

/-- C5 counterexample: on the topic `"no text"` with no calibration
examples, `detectImageRequest` reports `imageOnly = true` together with
`wantsImage = false`, so the claimed invariant `imageOnly ⇒ wantsImage`
fails on the code. -/
theorem claim_C5_counterexample :
    (detectImageRequest "no text" none).imageOnly = true ∧
    (detectImageRequest "no text" none).wantsImage = false := by
  decide

/-- C5 (amended): `imageOnly ⇒ wantsImage` holds except when `imageOnly`
was triggered by one of the text-suppressing keywords `"no text"`,
`"without text"`, `"skip the text"` (the only image-only keywords that
contain no image keyword): whenever `imageOnly` is true, either
`wantsImage` is true or the lower-cased topic contains one of those three
phrases. -/
theorem claim_C5_amended (topic : String) (exs : Option (List ExVal))
    (h : (detectImageRequest topic exs).imageOnly = true) :
    (detectImageRequest topic exs).wantsImage = true ∨
      (strIncludes (lowerStr topic) "no text" = true ∨
       strIncludes (lowerStr topic) "without text" = true ∨
       strIncludes (lowerStr topic) "skip the text" = true) := by
  have himg : (imageOnlyKeywords.any fun k => strIncludes (lowerStr topic) k) = true := h
  rw [List.any_eq_true] at himg
  obtain ⟨kw, hkw, hinc⟩ := himg
  have hwants : ∀ kw' : String, kw' ∈ imageKeywords →
      strIncludes (lowerStr topic) kw' = true →
      (detectImageRequest topic exs).wantsImage = true := by
    intro kw' hmem hin
    have hck : (imageKeywords.any fun k => strIncludes (lowerStr topic) k) = true :=
      List.any_eq_true.mpr ⟨kw', hmem, hin⟩
    simp [detectImageRequest, hck]
  simp only [imageOnlyKeywords, List.mem_cons, List.not_mem_nil, or_false] at hkw
  rcases hkw with rfl | rfl | rfl | rfl | rfl | rfl | rfl | rfl | rfl | rfl | rfl
  · exact Or.inl (hwants "image" (by decide) (strIncludes_trans (by decide) hinc))
  · exact Or.inl (hwants "image" (by decide) (strIncludes_trans (by decide) hinc))
  · exact Or.inl (hwants "image" (by decide) (strIncludes_trans (by decide) hinc))
  · exact Or.inl (hwants "image" (by decide) (strIncludes_trans (by decide) hinc))
  · exact Or.inl (hwants "image" (by decide) (strIncludes_trans (by decide) hinc))
  · exact Or.inr (Or.inl hinc)
  · exact Or.inr (Or.inr (Or.inl hinc))
  · exact Or.inr (Or.inr (Or.inr hinc))
  · exact Or.inl (hwants "visual" (by decide) (strIncludes_trans (by decide) hinc))
  · exact Or.inl (hwants "visual" (by decide) (strIncludes_trans (by decide) hinc))
  · exact Or.inl (hwants "visual" (by decide) (strIncludes_trans (by decide) hinc))

/-- C5 witness: on a topic whose image-only phrase does contain an image
keyword, the amended implication instantiates to `wantsImage = true`. -/
theorem claim_C5_witness :
    (detectImageRequest "just an image of a cat" none).imageOnly = true ∧
    ((detectImageRequest "just an image of a cat" none).wantsImage = true ∨
      (strIncludes (lowerStr "just an image of a cat") "no text" = true ∨
       strIncludes (lowerStr "just an image of a cat") "without text" = true ∨
       strIncludes (lowerStr "just an image of a cat") "skip the text" = true)) :=
  ⟨by decide, claim_C5_amended "just an image of a cat" none (by decide)⟩

/-- C6: the `imageOnly` flag of `detectImageRequest` depends only on the
topic — any two calibration-example lists give the same value — and equals
the check that the lower-cased topic contains one of the fixed
image-only keywords. -/
theorem claim_C6_imageOnly_topic_only (topic : String) (ex1 ex2 : Option (List ExVal)) :
    (detectImageRequest topic ex1).imageOnly = (detectImageRequest topic ex2).imageOnly ∧
    (detectImageRequest topic ex1).imageOnly
      = (imageOnlyKeywords.any fun keyword => strIncludes (lowerStr topic) keyword) :=
  ⟨rfl, rfl⟩

/-! ## Claims C1 and C2: `generateContentForFormat` and the batch -/

/-- Every control path of `generateContentForFormat` returns an artifact
(the TS `null` is never produced). -/
theorem generateContentForFormat_eq_some (topic industry format : String)
    (bv : Option BrandVoice) (o : Except ApiError ReplyBlock) :
    generateContentForFormat topic industry format bv o
      = some (generatedArtifact topic industry format bv o) := by
  unfold generatedArtifact
  cases o with
  | ok b => cases b <;> rfl
  | error e =>
      obtain ⟨st, et, em, msg⟩ := e
      cases st with
      | none => rfl
      | some s =>
          simp only [generateContentForFormat]
          split
          · rfl
          · split <;> rfl

theorem filterMap_id_map_some {α β : Type} (g : α → β) (l : List α) :
    (l.map fun x => some (g x)).filterMap id = l.map g := by
  induction l with
  | nil => rfl
  | cons x xs ih => simp [List.filterMap_cons, ih]

/-- C1: on a successful service reply, the artifact's `consistencyScore`
is exactly what the specification prescribes (`min(95, 70 + 25 ×
matchedCount/totalCount)` for non-empty terminology, `75` for an analysis
with empty terminology, absent without an analysis), and whenever the
score is present it lies in `[70, 95]`. -/
theorem claim_C1_consistencyScore (topic industry format : String)
    (brandVoice : Option BrandVoice) (reply : String) :
    (generatedArtifact topic industry format brandVoice
        (.ok (.textBlock reply))).consistencyScore
      = specConsistencyScore brandVoice reply ∧
    Option.elim
      ((generatedArtifact topic industry format brandVoice
          (.ok (.textBlock reply))).consistencyScore)
      True (fun q => 70 ≤ q ∧ q ≤ 95) := by
  cases brandVoice with
  | none => exact ⟨rfl, trivial⟩
  | some a =>
      cases hterm : a.terminology with
      | nil =>
          constructor
          · simp [generatedArtifact, generateContentForFormat, specConsistencyScore, hterm]
          · simp only [generatedArtifact, generateContentForFormat, Option.getD_some]
            rw [hterm]
            norm_num [Option.elim]
      | cons t ts =>
          have hlen : a.terminology.length > 0 := by rw [hterm]; simp
          have hne : ¬ a.terminology = [] := by rw [hterm]; simp
          have hnn : (0:ℚ) ≤
              ((a.terminology.filter fun term =>
                strIncludes (lowerStr reply) (lowerStr term)).length : ℚ)
                / (a.terminology.length : ℚ) * 25 :=
            mul_nonneg (div_nonneg (Nat.cast_nonneg _) (Nat.cast_nonneg _)) (by norm_num)
          constructor
          · simp only [generatedArtifact, generateContentForFormat, specConsistencyScore,
              Option.getD_some, if_pos hlen, if_neg hne]
            congr 1
            rw [div_mul_eq_mul_div, mul_comm]
          · simp only [generatedArtifact, generateContentForFormat,
              Option.getD_some, if_pos hlen, Option.elim]
            exact ⟨le_min (by norm_num) (by linarith), min_le_left _ _⟩

/-- Distinct leading markers make the authentication and malformed-request
error bodies unequal whatever the embedded service messages are. -/
theorem authMsg_ne_reqMsg (x y s1 s2 : String) :
    ("❌ Authentication Error: " ++ x ++ s1) ≠ ("❌ Request Error: " ++ y ++ s2) := by
  intro h
  have h' := congrArg String.data h
  simp only [String.data_append] at h'
  simp only [List.cons_append, List.cons.injEq] at h'
  exact absurd h'.2.2.1 (by decide)

/-- C2: the fan-out produces exactly one artifact per requested format, in
order, each depending only on its own format's service outcome (the
`Promise.all` batch is modelled by this pointwise map); a format whose
call raises yields an artifact with no consistency score whose body is the
human-readable error message, with distinct messages for
authentication-shaped and malformed-request-shaped failures. -/
theorem claim_C2_batch (topic industry : String) (bv : Option BrandVoice)
    (formats : List String) (svc : String → Except ApiError ReplyBlock) :
    batchContents topic industry formats bv svc
      = formats.map (fun f => generatedArtifact topic industry f bv (svc f)) ∧
    (batchContents topic industry formats bv svc).length = formats.length ∧
    (∀ f e, (generatedArtifact topic industry f bv (.error e)).consistencyScore = none) ∧
    (∀ f e, isAuthShaped e = true →
      (generatedArtifact topic industry f bv (.error e)).content
        = "❌ Authentication Error: " ++ e.errMsg.getD "Invalid API key" ++
          ". Please check your ANTHROPIC_API_KEY in Vercel environment variables.") ∧
    (∀ f e, isReqShaped e = true →
      (generatedArtifact topic industry f bv (.error e)).content
        = "❌ Request Error: " ++ e.errMsg.getD "Invalid request" ++
          ". Please try again with different parameters.") ∧
    (∀ f f' e e', isAuthShaped e = true → isReqShaped e' = true →
      (generatedArtifact topic industry f bv (.error e)).content
        ≠ (generatedArtifact topic industry f' bv (.error e')).content) ∧
    (∀ f o, (generatedArtifact topic industry f bv o).format = f) := by
  have hmap : batchContents topic industry formats bv svc
      = formats.map (fun f => generatedArtifact topic industry f bv (svc f)) := by
    unfold batchContents
    simp only [generateContentForFormat_eq_some]
    exact filterMap_id_map_some _ _
  have hscore : ∀ f e,
      (generatedArtifact topic industry f bv (.error e)).consistencyScore = none := by
    intro f e
    obtain ⟨st, et, em, msg⟩ := e
    cases st with
    | none => rfl
    | some s =>
        simp only [generatedArtifact, generateContentForFormat]
        split
        · rfl
        · split <;> rfl
  have hauth : ∀ f e, isAuthShaped e = true →
      (generatedArtifact topic industry f bv (.error e)).content
        = "❌ Authentication Error: " ++ e.errMsg.getD "Invalid API key" ++
          ". Please check your ANTHROPIC_API_KEY in Vercel environment variables." := by
    intro f e h
    obtain ⟨st, et, em, msg⟩ := e
    cases st with
    | none => exact absurd h (by simp [isAuthShaped])
    | some s =>
        simp only [isAuthShaped] at h
        simp [generatedArtifact, generateContentForFormat, h]
  have hreq : ∀ f e, isReqShaped e = true →
      (generatedArtifact topic industry f bv (.error e)).content
        = "❌ Request Error: " ++ e.errMsg.getD "Invalid request" ++
          ". Please try again with different parameters." := by
    intro f e h
    obtain ⟨st, et, em, msg⟩ := e
    cases st with
    | none => exact absurd h (by simp [isReqShaped])
    | some s =>
        simp only [isReqShaped, Bool.and_eq_true, Bool.not_eq_true'] at h
        simp [generatedArtifact, generateContentForFormat, h.1, h.2]
  refine ⟨hmap, by rw [hmap, List.length_map], hscore, hauth, hreq, ?_, ?_⟩
  · intro f f' e e' he he' heq
    rw [hauth f e he, hreq f' e' he'] at heq
    exact authMsg_ne_reqMsg _ _ _ _ heq
  · intro f o
    cases o with
    | ok b => cases b <;> rfl
    | error e =>
        obtain ⟨st, et, em, msg⟩ := e
        cases st with
        | none => rfl
        | some s =>
            simp only [generatedArtifact, generateContentForFormat]
            split
            · rfl
            · split <;> rfl

/-- C2 witness: with a 401-shaped failure on one format and a 400-shaped
failure on another, the two error bodies are distinct, as are the shapes. -/
theorem claim_C2_witness :
    isAuthShaped ⟨some 401, none, none, "boom"⟩ = true ∧
    isReqShaped ⟨some 400, none, none, "bad"⟩ = true ∧
    (generatedArtifact "Topic" "SaaS" "blog" none
        (.error ⟨some 401, none, none, "boom"⟩)).content
      ≠ (generatedArtifact "Topic" "SaaS" "twitter" none
          (.error ⟨some 400, none, none, "bad"⟩)).content :=
  ⟨by decide, by decide,
   (claim_C2_batch "Topic" "SaaS" none [] fun _ => .ok .otherBlock).2.2.2.2.2.1
     "blog" "twitter" _ _ (by decide) (by decide)⟩

/-! ## Claim C3: `analyzeBrandVoice` never fails -/

/-- C3: `analyzeBrandVoice` is total (nothing propagates to the caller) and
returns the fixed default profile on a `null`/non-array input, an empty
input, a raised service error, a non-text reply block, and an unparseable
reply. -/
theorem claim_C3_analyze_default :
    (∀ svc decode, analyzeBrandVoice none svc decode = defaultProfile) ∧
    (∀ svc decode, analyzeBrandVoice (some []) svc decode = defaultProfile) ∧
    (∀ exs decode, analyzeBrandVoice (some exs) (.error ()) decode = defaultProfile) ∧
    (∀ exs decode, analyzeBrandVoice (some exs) (.ok .otherBlock) decode = defaultProfile) ∧
    (∀ exs t decode, decode (extractCandidate t) = none →
      analyzeBrandVoice (some exs) (.ok (.textBlock t)) decode = defaultProfile) := by
  refine ⟨fun _ _ => rfl, fun _ _ => rfl, ?_, ?_, ?_⟩
  · intro exs decode; cases exs <;> rfl
  · intro exs decode; cases exs <;> rfl
  · intro exs t decode h
    cases exs with
    | nil => rfl
    | cons e es => simp [analyzeBrandVoice, h]

/-- C3 witness: a reply that parses as nothing yields the default
profile. -/
theorem claim_C3_witness :
    analyzeBrandVoice (some [.vStr "We build rockets"])
      (.ok (.textBlock "no structured data here")) (fun _ => none) = defaultProfile :=
  claim_C3_analyze_default.2.2.2.2 [.vStr "We build rockets"]
    "no structured data here" (fun _ => none) rfl

/-! ## Claim C7: example normalization -/

/-- C7 counterexample: a tagged image example with a non-empty caption
(`textContent`) but no body (`content`) is dropped by the normalization,
although the claim says a tagged value with a non-empty caption is kept —
the filter consults a `text` property, not the caption field
`textContent`. -/
theorem claim_C7_counterexample :
    processedExamples [.vObj ⟨some "image", none, some "A nice logo", none, none⟩] = [] ∧
    truthyS (ExVal.vObj
      ⟨some "image", none, some "A nice logo", none, none⟩).textContentF = true := by
  decide

/-- C7 (amended): normalization is a pointwise map-and-filter that never
raises: plain strings become tagged text examples with the string as
content (dropped when empty), `null` entries are dropped, and a tagged
value is kept exactly when its `content` — or a legacy `text` property,
which no caption-carrying example has — is a non-empty string; a value
whose only text is its caption `textContent` is dropped. -/
theorem claim_C7_amended :
    (∀ xs ys, processedExamples (xs ++ ys)
        = processedExamples xs ++ processedExamples ys) ∧
    (∀ s, processedExamples [.vStr s]
        = if s = "" then [] else [.vObj ⟨some "text", some s, none, none, none⟩]) ∧
    (processedExamples [.vNull] = []) ∧
    (∀ o, processedExamples [.vObj o]
        = if truthyS o.content || truthyS o.text then [.vObj o] else []) := by
  refine ⟨?_, ?_, rfl, ?_⟩
  · intro xs ys
    simp [processedExamples, List.filter_append]
  · intro s
    by_cases h : s = "" <;>
      simp [processedExamples, ExVal.truthy, ExVal.contentF, ExVal.textF, truthyS, h]
  · intro o
    cases h : truthyS o.content || truthyS o.text <;>
      simp [processedExamples, ExVal.truthy, ExVal.contentF, ExVal.textF, h]

/-! ## Claim C4: JSON-candidate extraction -/

theorem getLast?_cons_of_ne {r : List Char} (c : Char) (h : r ≠ []) :
    (c :: r).getLast? = r.getLast? := by
  cases r with
  | nil => exact absurd rfl h
  | cons x xs => simp [List.getLast?_cons_cons]

theorem captureTail_spec : ∀ l r, captureTail l = some r →
    (∃ rest, l = r ++ rest) ∧ r ≠ [] ∧ r.getLast? = some rbraceCh ∧ r.head? = l.head? := by
  intro l
  induction l with
  | nil => intro r h; simp [captureTail] at h
  | cons c cs ih =>
      intro r h
      cases hrec : captureTail cs with
      | some r' =>
          simp only [captureTail, hrec, Option.some.injEq] at h
          subst h
          obtain ⟨⟨rest, hrest⟩, hne, hlast, _⟩ := ih r' hrec
          exact ⟨⟨rest, by simp [hrest]⟩, by simp,
            by rw [getLast?_cons_of_ne c hne]; exact hlast, rfl⟩
      | none =>
          simp only [captureTail, hrec] at h
          split at h
          · next hcond =>
              obtain rfl : [c] = r := by injection h
              have hc : c = rbraceCh := by
                simp only [Bool.and_eq_true, beq_iff_eq] at hcond
                exact hcond.1
              exact ⟨⟨cs, rfl⟩, by simp, by simp [hc], rfl⟩
          · exact absurd h (by simp)

theorem fenceFrom_spec (t r : List Char) (h : fenceFrom t = some r) :
    r ≠ [] ∧ r.head? = some lbraceCh ∧ r.getLast? = some rbraceCh := by
  simp only [fenceFrom] at h
  split at h
  · next c tail heq =>
      rw [heq] at h
      split at h
      · next hc =>
          obtain ⟨_, hne, hlast, hhead⟩ := captureTail_spec _ _ h
          refine ⟨hne, ?_, hlast⟩
          rw [hhead]
          simpa using beq_iff_eq.mp hc
      · exact absurd h (by simp)
  · exact absurd h (by simp)

theorem fenceScan_spec : ∀ l r, fenceScan l = some r → ∃ t, fenceFrom t = some r := by
  intro l
  induction l with
  | nil => intro r h; simp [fenceScan] at h
  | cons c cs ih =>
      intro r h
      rw [fenceScan] at h
      split at h
      · cases hf : fenceFrom (cs.drop 2) with
        | some r' =>
            rw [hf] at h
            obtain rfl : r' = r := by injection h
            exact ⟨cs.drop 2, hf⟩
        | none => rw [hf] at h; exact ih r h
      · exact ih r h

theorem takeThroughLastRBrace_none : ∀ l, takeThroughLastRBrace l = none →
    ∀ c ∈ l, c ≠ rbraceCh := by
  intro l
  induction l with
  | nil => intro _ c hc; simp at hc
  | cons x xs ih =>
      intro h c hc
      cases hrec : takeThroughLastRBrace xs with
      | some r => simp [takeThroughLastRBrace, hrec] at h
      | none =>
          simp only [takeThroughLastRBrace, hrec] at h
          rcases List.mem_cons.mp hc with rfl | hmem
          · intro hEq
            rw [hEq] at h
            simp at h
          · exact ih hrec c hmem

theorem takeThroughLastRBrace_spec : ∀ l r, takeThroughLastRBrace l = some r →
    ∃ rest, l = r ++ rest ∧ r ≠ [] ∧ r.getLast? = some rbraceCh ∧
      ∀ c ∈ rest, c ≠ rbraceCh := by
  intro l
  induction l with
  | nil => intro r h; simp [takeThroughLastRBrace] at h
  | cons x xs ih =>
      intro r h
      cases hrec : takeThroughLastRBrace xs with
      | some r' =>
          simp only [takeThroughLastRBrace, hrec, Option.some.injEq] at h
          subst h
          obtain ⟨rest, hrest, hne, hlast, hfree⟩ := ih r' hrec
          exact ⟨rest, by simp [hrest], by simp,
            by rw [getLast?_cons_of_ne x hne]; exact hlast, hfree⟩
      | none =>
          simp only [takeThroughLastRBrace, hrec] at h
          split at h
          · next hx =>
              obtain rfl : [x] = r := by injection h
              exact ⟨xs, rfl, by simp, by simpa using beq_iff_eq.mp hx,
                takeThroughLastRBrace_none xs hrec⟩
          · exact absurd h (by simp)

theorem takeThroughLastRBrace_full : ∀ l, l.getLast? = some rbraceCh →
    takeThroughLastRBrace l = some l := by
  intro l
  induction l with
  | nil => intro h; simp at h
  | cons c cs ih =>
      intro h
      cases cs with
      | nil =>
          simp only [List.getLast?_singleton, Option.some.injEq] at h
          simp [takeThroughLastRBrace, h]
      | cons x xs =>
          rw [List.getLast?_cons_cons] at h
          have hih := ih h
          show (match takeThroughLastRBrace (x :: xs) with
            | some r => some (c :: r)
            | none => if c == rbraceCh then some [c] else none) = some (c :: x :: xs)
          rw [hih]

theorem dropWhile_head_false (p : Char → Bool) : ∀ (l : List Char) {c : Char}
    {cs : List Char}, l.dropWhile p = c :: cs → p c = false := by
  intro l
  induction l with
  | nil => intro c cs h; simp at h
  | cons x xs ih =>
      intro c cs h
      rw [List.dropWhile_cons] at h
      split at h
      · exact ih h
      · next hx =>
          obtain rfl : x = c := by injection h with h1 _
          exact Bool.of_not_eq_true hx

theorem braceSpan_self (r : List Char) (hhead : r.head? = some lbraceCh)
    (hlast : r.getLast? = some rbraceCh) : braceSpan r = some r := by
  cases r with
  | nil => simp at hhead
  | cons c cs =>
      obtain rfl : c = lbraceCh := by simpa using hhead
      cases cs with
      | nil => exact absurd hlast (by decide)
      | cons x xs =>
          rw [List.getLast?_cons_cons] at hlast
          simp only [braceSpan, List.dropWhile_cons]
          rw [if_neg (by simp)]
          simp only [takeThroughLastRBrace_full _ hlast]
          rfl

theorem braceSpan_chars (l r : List Char) (h : braceSpan l = some r) :
    ∃ a b, l = a ++ r ++ b ∧ (∀ c ∈ a, c ≠ lbraceCh) ∧
      r.head? = some lbraceCh ∧ r.getLast? = some rbraceCh ∧
      ∀ c ∈ b, c ≠ rbraceCh := by
  unfold braceSpan at h
  cases hd : l.dropWhile (fun c => !(c == lbraceCh)) with
  | nil => rw [hd] at h; simp at h
  | cons c cs =>
      rw [hd] at h
      have h' : ((takeThroughLastRBrace cs).map fun r => c :: r) = some r := h
      cases ht : takeThroughLastRBrace cs with
      | none => rw [ht] at h'; simp at h'
      | some r' =>
          rw [ht] at h'
          obtain rfl : c :: r' = r := by simpa using h'
          obtain ⟨rest, hrest, hne, hlast, hfree⟩ := takeThroughLastRBrace_spec _ _ ht
          have hc : c = lbraceCh := by
            have := dropWhile_head_false _ l hd
            simpa using this
          refine ⟨l.takeWhile (fun c => !(c == lbraceCh)), rest, ?_, ?_, by simp [hc],
            by rw [getLast?_cons_of_ne c hne]; exact hlast, hfree⟩
          · conv_lhs => rw [← List.takeWhile_append_dropWhile (fun c => !(c == lbraceCh)) l]
            rw [hd, hrest]
            simp
          · intro x hx
            have := List.mem_takeWhile_imp hx
            simpa using this

/-- C4 counterexample: on the reply `"x {a} y {b}"` the extracted candidate
is the greedy span `"{a} y {b}"` (first opening brace through the *last*
closing brace), not the first balanced brace-delimited substring `"{a}"`
the claim prescribes. -/
theorem claim_C4_counterexample :
    extractCandidate "x {a} y {b}" = "{a} y {b}" ∧
    extractCandidate "x {a} y {b}" ≠ "{a}" := by
  exact ⟨by decide, by decide⟩

/-- C4 (amended): the extraction works on the trimmed reply in this fixed
fallback order: (a) if the fenced-block pattern matches — a fence,
an optional `json` tag, whitespace, then a brace-delimited body — the
greedy fenced capture is taken; (b) else, if the reply contains an opening
brace with a later closing brace, the span from the *first* opening brace
through the *last* closing brace is taken, which need not be balanced;
(c) else the trimmed reply is used verbatim.  On decode success
`analyzeBrandVoice` returns the decoded object as-is. -/
theorem claim_C4_amended :
    (∀ s cap, fenceScan (jsTrim s).data = some cap → extractCandidate s = ⟨cap⟩) ∧
    (∀ s r, fenceScan (jsTrim s).data = none → braceSpan (jsTrim s).data = some r →
      extractCandidate s = ⟨r⟩) ∧
    (∀ s, fenceScan (jsTrim s).data = none → braceSpan (jsTrim s).data = none →
      extractCandidate s = jsTrim s) ∧
    (∀ l r, braceSpan l = some r → ∃ a b, l = a ++ r ++ b ∧
      (∀ c ∈ a, c ≠ lbraceCh) ∧ r.head? = some lbraceCh ∧
      r.getLast? = some rbraceCh ∧ ∀ c ∈ b, c ≠ rbraceCh) ∧
    (∀ (e : ExVal) (exs : List ExVal) t j decode, decode (extractCandidate t) = some j →
      analyzeBrandVoice (some (e :: exs)) (.ok (.textBlock t)) decode = j) := by
  refine ⟨?_, ?_, ?_, braceSpan_chars, ?_⟩
  · intro s cap h
    obtain ⟨t, ht⟩ := fenceScan_spec _ _ h
    obtain ⟨_, hhead, hlast⟩ := fenceFrom_spec _ _ ht
    have hb := braceSpan_self cap hhead hlast
    simp only [extractCandidate, h, hb]
  · intro s r h1 h2
    simp only [extractCandidate, h1, h2]
  · intro s h1 h2
    simp only [extractCandidate, h1, h2]
  · intro e exs t j decode h
    simp [analyzeBrandVoice, h]

/-- C4 witness: a fenced JSON reply has its fenced body extracted. -/
theorem claim_C4_witness :
    fenceScan (jsTrim "```json\n{a}\n```").data = some "{a}".data ∧
    extractCandidate "```json\n{a}\n```" = "{a}" :=
  ⟨by decide, claim_C4_amended.1 "```json\n{a}\n```" "{a}".data (by decide)⟩

/-! ## Claims C9 and C10: `generateSVGImage` -/

set_option maxRecDepth 4000 in
/-- C9: whenever the synthesis call raises, `generateSVGImage` returns the
deterministic placeholder, which starts with the opening `<svg` tag, ends
with the closing `</svg>` tag, and contains the topic text; nothing
propagates (the model is total). -/
theorem claim_C9_placeholder (topic : String) :
    generateSVGImage topic (Except.error ()) = placeholderSVG topic ∧
    "<svg".data <+: (placeholderSVG topic).data ∧
    "</svg>".data <:+ (placeholderSVG topic).data ∧
    topic.data <:+: (placeholderSVG topic).data := by
  refine ⟨rfl, ?_, ?_, ?_⟩
  · have h1 : "<svg".data <+: placeholderPre.data := by decide
    have h2 : placeholderPre.data <+: (placeholderSVG topic).data := by
      rw [placeholderSVG, String.data_append, String.data_append]
      exact List.prefix_append _ _
    exact h1.trans h2
  · have h1 : "</svg>".data <:+ placeholderPost.data := by decide
    have h2 : placeholderPost.data <:+ (placeholderSVG topic).data := by
      rw [placeholderSVG, String.data_append, String.data_append]
      exact (List.suffix_append topic.data placeholderPost.data).trans
        (List.suffix_append placeholderPre.data (topic.data ++ placeholderPost.data))
    exact h1.trans h2
  · exact ⟨placeholderPre.data, placeholderPost.data, by
      rw [placeholderSVG, String.data_append, String.data_append]⟩

theorem takeThroughLastCloseSvg_none_iff (l : List Char) :
    takeThroughLastCloseSvg l = none ↔ containsList svgClose l = false := by
  induction l with
  | nil => simp [takeThroughLastCloseSvg, containsList, svgClose]
  | cons c cs ih =>
      cases hrec : takeThroughLastCloseSvg cs with
      | some r =>
          have hcs : containsList svgClose cs = true := by
            cases hx : containsList svgClose cs with
            | true => rfl
            | false => exact absurd hrec (by simp [ih.mpr hx])
          simp [takeThroughLastCloseSvg, containsList, hrec, hcs]
      | none =>
          have hcs : containsList svgClose cs = false := ih.mp hrec
          cases hstart : startsList svgClose (c :: cs) with
          | true => simp [takeThroughLastCloseSvg, containsList, hrec, hstart]
          | false => simp [takeThroughLastCloseSvg, containsList, hrec, hstart, hcs]

theorem takeThroughLastCloseSvg_spec : ∀ l r, takeThroughLastCloseSvg l = some r →
    ∃ pre post, l = r ++ post ∧ r = pre ++ svgClose := by
  intro l
  induction l with
  | nil => intro r h; simp [takeThroughLastCloseSvg] at h
  | cons c cs ih =>
      intro r h
      cases hrec : takeThroughLastCloseSvg cs with
      | some r' =>
          simp only [takeThroughLastCloseSvg, hrec, Option.some.injEq] at h
          subst h
          obtain ⟨pre, post, hpost, hpre⟩ := ih r' hrec
          exact ⟨c :: pre, post, by simp [hpost], by simp [hpre]⟩
      | none =>
          simp only [takeThroughLastCloseSvg, hrec] at h
          split at h
          · next hstart =>
              obtain rfl : svgClose = r := by injection h
              obtain ⟨t, ht⟩ := (startsList_iff _ _).mp hstart
              exact ⟨[], t, ht.symm, by simp⟩
          · exact absurd h (by simp)

theorem svgSpanMatch_some_spec : ∀ l r, svgSpanMatch l = some r →
    ∃ a b c, l = a ++ svgOpen ++ b ++ svgClose ++ c := by
  intro l
  induction l with
  | nil => intro r h; simp [svgSpanMatch] at h
  | cons x xs ih =>
      intro r h
      cases hstart : startsList svgOpen (x :: xs) with
      | false =>
          simp only [svgSpanMatch, hstart, Bool.false_eq_true, if_false] at h
          obtain ⟨a, b, c, hd⟩ := ih r h
          exact ⟨x :: a, b, c, by simp [hd]⟩
      | true =>
          simp only [svgSpanMatch, hstart, if_true] at h
          obtain ⟨rest, hrest⟩ := (startsList_iff _ _).mp hstart
          cases ht : takeThroughLastCloseSvg ((x :: xs).drop 4) with
          | none => rw [ht] at h; obtain ⟨a, b, c, hd⟩ := ih r h; exact ⟨x :: a, b, c, by simp [hd]⟩
          | some r' =>
              rw [ht] at h
              obtain ⟨pre, post, hpost, hpre⟩ := takeThroughLastCloseSvg_spec _ _ ht
              have hdrop : (x :: xs).drop 4 = rest := by
                rw [← hrest]
                exact List.drop_left svgOpen rest
              have hrest2 : rest = (pre ++ svgClose) ++ post := by
                rw [← hdrop, hpost, hpre]
              refine ⟨[], pre, post, ?_⟩
              rw [List.nil_append, ← hrest, hrest2]
              simp

theorem svgSpanMatch_isSome_of (l : List Char) (h1 : startsList svgOpen l = true)
    (h2 : containsList svgClose (l.drop 4) = true) : (svgSpanMatch l).isSome := by
  cases l with
  | nil => exact absurd h1 (by decide)
  | cons c cs =>
      have h2' : containsList svgClose (cs.drop 3) = true := h2
      cases ht : takeThroughLastCloseSvg (cs.drop 3) with
      | some r => simp [svgSpanMatch, h1, ht]
      | none =>
          have hnone := (takeThroughLastCloseSvg_none_iff _).mp ht
          rw [hnone] at h2'
          exact absurd h2' (by simp)

theorem svgSpanMatch_isSome_decomp : ∀ a b c : List Char,
    (svgSpanMatch (a ++ svgOpen ++ b ++ svgClose ++ c)).isSome := by
  intro a
  induction a with
  | nil =>
      intro b c
      apply svgSpanMatch_isSome_of
      · exact (startsList_iff _ _).mpr (List.prefix_append svgOpen (b ++ svgClose ++ c))
      · have hdrop : (([] : List Char) ++ svgOpen ++ b ++ svgClose ++ c).drop 4
            = b ++ svgClose ++ c := List.drop_left svgOpen (b ++ svgClose ++ c)
        rw [hdrop]
        exact (containsList_iff _ _).mpr ⟨b, c, by simp⟩
  | cons x a' ih =>
      intro b c
      simp only [List.cons_append]
      cases hstart : startsList svgOpen (x :: (a' ++ svgOpen ++ b ++ svgClose ++ c)) with
      | false =>
          simp only [svgSpanMatch, hstart, Bool.false_eq_true, if_false]
          exact ih b c
      | true =>
          have hcontains :
              containsList svgClose ((a' ++ svgOpen ++ b ++ svgClose ++ c).drop 3) = true := by
            have h3 : (3 : Nat) ≤ (a' ++ svgOpen).length := by
              simp [svgOpen]
            have hsplit : a' ++ svgOpen ++ b ++ svgClose ++ c
                = (a' ++ svgOpen) ++ (b ++ svgClose ++ c) := by
              simp
            rw [hsplit, List.drop_append_of_le_length h3]
            exact (containsList_iff _ _).mpr ⟨(a' ++ svgOpen).drop 3 ++ b, c, by simp⟩
          exact svgSpanMatch_isSome_of _ hstart hcontains

/-- The brace-span regex finds a match exactly when the text contains an
`<svg` later followed by a `</svg>`. -/
theorem svgSpanMatch_none_iff (l : List Char) :
    svgSpanMatch l = none ↔ ¬ ∃ a b c, l = a ++ svgOpen ++ b ++ svgClose ++ c := by
  constructor
  · rintro h ⟨a, b, c, rfl⟩
    have := svgSpanMatch_isSome_decomp a b c
    rw [h] at this
    exact absurd this (by simp)
  · intro h
    cases hm : svgSpanMatch l with
    | none => rfl
    | some r => exact absurd (svgSpanMatch_some_spec _ _ hm) h

/-- C10: on a successful synthesis call whose reply — after trimming and
fence-marker stripping — neither starts with `<svg` nor contains any
`<svg … </svg>` span, `generateSVGImage` returns the stripped reply text
verbatim (not the placeholder), so the returned document need not be SVG
markup; and the span regex matches exactly when such a span exists. -/
theorem claim_C10_nonSvg_reply :
    (∀ topic reply,
      startsList svgOpen (replFenceBare (replFenceSvg (jsTrim reply).data)) = false →
      svgSpanMatch (replFenceBare (replFenceSvg (jsTrim reply).data)) = none →
      generateSVGImage topic (.ok (.textBlock reply))
        = ⟨replFenceBare (replFenceSvg (jsTrim reply).data)⟩) ∧
    (∀ l, svgSpanMatch l = none ↔ ¬ ∃ a b c, l = a ++ svgOpen ++ b ++ svgClose ++ c) := by
  refine ⟨?_, svgSpanMatch_none_iff⟩
  intro topic reply h1 h2
  simp only [generateSVGImage, svgFromReply, h1, h2, Bool.false_eq_true, if_false]

/-- C10 witness: a refusal reply comes back verbatim as the "graphic". -/
theorem claim_C10_witness :
    startsList svgOpen (replFenceBare (replFenceSvg (jsTrim "I cannot draw that.").data))
      = false ∧
    svgSpanMatch (replFenceBare (replFenceSvg (jsTrim "I cannot draw that.").data)) = none ∧
    generateSVGImage "team meeting" (.ok (.textBlock "I cannot draw that."))
      = "I cannot draw that." :=
  ⟨by decide, by decide,
   claim_C10_nonSvg_reply.1 "team meeting" "I cannot draw that." (by decide) (by decide)⟩

/-! ## Claim C8: the image-only response -/

/-- C8: on a validated request whose topic classifies as image-only, for
which synthesis ran (`wantsImage`) and produced a non-empty graphic, the
handler returns exactly one artifact — tagged `image`, carrying the
percent-encoded `data:image/svg+xml` reference — and no per-format text
artifact; the per-format generation oracle is never consulted (the
response is the same for any two oracles). -/
theorem claim_C8_imageOnly_single_artifact (apiKey : String) (body : RequestBody)
    (analyzeResult : BrandVoice) (svgReply : Except Unit ReplyBlock)
    (formatSvc formatSvc' : String → Except ApiError ReplyBlock)
    (hkey : validateApiKey apiKey = true)
    (htopic : body.topic ≠ "")
    (hind : body.industry ≠ "")
    (hfmts : (body.formats.getD []).length ≠ 0)
    (hio : (detectImageRequest body.topic (some (examplesToUse body))).imageOnly = true)
    (hwi : (detectImageRequest body.topic (some (examplesToUse body))).wantsImage = true)
    (hsvg : generateSVGImage body.topic svgReply ≠ "") :
    POSTflow apiKey body analyzeResult svgReply formatSvc
      = .ok [{ format := "image", content := "SVG image generated successfully",
               title := some "Generated Image",
               imageUrl := some (svgDataURI (generateSVGImage body.topic svgReply)) }]
          (if (examplesToUse body).length > 0 then some analyzeResult else body.brandVoice) ∧
    POSTflow apiKey body analyzeResult svgReply formatSvc
      = POSTflow apiKey body analyzeResult svgReply formatSvc' := by
  have hkeyne : (apiKey == "") = false := by
    cases hx : apiKey == "" with
    | false => rfl
    | true =>
        rw [beq_iff_eq.mp hx] at hkey
        exact absurd hkey (by decide)
  have hfmtsb : ((body.formats.getD []).length == 0) = false := beq_eq_false_iff_ne.mpr hfmts
  have htopicb : (body.topic == "") = false := beq_eq_false_iff_ne.mpr htopic
  have hindb : (body.industry == "") = false := beq_eq_false_iff_ne.mpr hind
  have hsvgb : (generateSVGImage body.topic svgReply == "") = false :=
    beq_eq_false_iff_ne.mpr hsvg
  have main : ∀ fsvc, POSTflow apiKey body analyzeResult svgReply fsvc
      = .ok [{ format := "image", content := "SVG image generated successfully",
               title := some "Generated Image",
               imageUrl := some (svgDataURI (generateSVGImage body.topic svgReply)) }]
          (if (examplesToUse body).length > 0 then some analyzeResult else body.brandVoice) := by
    intro fsvc
    simp only [POSTflow, hkeyne, hkey, hfmtsb, htopicb, hindb, hio, hwi, hsvgb, truthyS,
      Bool.and_false, Bool.or_self, Bool.or_false, Bool.false_or, Bool.not_true,
      Bool.false_eq_true, if_false, if_true, Bool.and_self, Option.getD_some]
    simp
  exact ⟨main formatSvc, (main formatSvc).trans (main formatSvc').symm⟩

/-- C8 witness: a concrete image-only request returns the same single-image
response whether the per-format oracle succeeds or raises. -/
theorem claim_C8_witness :
    (detectImageRequest "just an image of a cat"
      (some (examplesToUse ⟨"just an image of a cat", "SaaS", some ["blog"], none, none⟩))).imageOnly
        = true ∧
    POSTflow "sk-ant-aaaaaaaaaaaaaaaa"
        ⟨"just an image of a cat", "SaaS", some ["blog"], none, none⟩
        ⟨"professional", "clear and concise", [], "standard"⟩
        (.ok (.textBlock "<svg>cat</svg>")) (fun _ => .ok .otherBlock)
      = POSTflow "sk-ant-aaaaaaaaaaaaaaaa"
          ⟨"just an image of a cat", "SaaS", some ["blog"], none, none⟩
          ⟨"professional", "clear and concise", [], "standard"⟩
          (.ok (.textBlock "<svg>cat</svg>")) (fun _ => .error ⟨none, none, none, "down"⟩) :=
  ⟨by decide,
   (claim_C8_imageOnly_single_artifact "sk-ant-aaaaaaaaaaaaaaaa"
      ⟨"just an image of a cat", "SaaS", some ["blog"], none, none⟩
      ⟨"professional", "clear and concise", [], "standard"⟩
      (.ok (.textBlock "<svg>cat</svg>")) (fun _ => .ok .otherBlock)
      (fun _ => .error ⟨none, none, none, "down"⟩)
      (by decide) (by decide) (by decide) (by decide)
      (by decide) (by decide) (by decide)).2⟩

end ContentRoute
